import Mathlib

/-!
# Verification of the rg3d shared example module

Shallow embedding of `src/examples/shared/mod.rs`: the locomotion animation
state machine's rule parameters, the player update loop (velocity, ground
contact, facing-angle selection, camera transforms, machine input), the
input controller with its device-event handler, and the asynchronous scene
load's progress-reporting trace.

`f32` values are modelled as real numbers (`ℝ`) where normalization and
trigonometry are involved, and as rationals (`ℚ`) where all values involved
are exactly representable and decidability is useful.  Engine code that the
example calls but that is not part of the example file itself (vector
normalization, the animation signal mechanism, `SmoothAngle`) is modelled
where needed, marked as such.
-/

namespace RgShared

/-! ## Input controller (source: `InputController` and its `Default` impl) -/

/-- `InputController`: four directional flags, jump flag, accumulated yaw and
pitch angles (radians, modelled as `ℝ`). -/
structure InputController where
  walk_forward : Bool
  walk_backward : Bool
  walk_left : Bool
  walk_right : Bool
  jump : Bool
  yaw : ℝ
  pitch : ℝ

/-- `Default for InputController`: all flags false, zero angles. -/
def InputController.default : InputController :=
  { walk_forward := false
    walk_backward := false
    walk_left := false
    walk_right := false
    jump := false
    yaw := 0
    pitch := 0 }

/-! ## Locomotion machine rule parameters (source: `LocomotionMachine::apply`) -/

/-- `LocomotionMachineInput`: the two flags Player::update feeds to the machine. -/
structure LocomotionMachineInput where
  is_walking : Bool
  is_jumping : Bool

/-- The five boolean rule parameters set by `LocomotionMachine::apply`. -/
structure MachineRules where
  idle_to_walk : Bool
  walk_to_idle : Bool
  walk_to_jump : Bool
  idle_to_jump : Bool
  jump_to_idle : Bool

/-- `LocomotionMachine::apply`, parameter-setting part: recomputes the five
rule parameters from the input flags and the jump animation's `has_ended`
query (`scene.animations.get(self.jump_animation).has_ended()`). -/
def setRules (input : LocomotionMachineInput) (jumpHasEnded : Bool) : MachineRules :=
  { idle_to_walk := input.is_walking
    walk_to_idle := !input.is_walking
    walk_to_jump := input.is_jumping
    idle_to_jump := input.is_jumping
    jump_to_idle := !input.is_jumping && jumpHasEnded }

/-- `LocomotionMachine::JUMP_SIGNAL`. -/
def JUMP_SIGNAL : ℕ := 1

/-! ## Facing-angle table (source: `Player::update`, the `angle` conditional) -/

/-- The discrete facing angle, in degrees, chosen by the nested conditional in
`Player::update` when the character is moving.  All branch values are exact
in `f32`, so the result is modelled in `ℚ`. -/
def facingAngleDeg (left right forward backward : Bool) : ℚ :=
  if left then
    (if forward then 45 else if backward then 135 else 90)
  else if right then
    (if forward then -45 else if backward then -135 else -90)
  else
    (if backward then 180 else 0)

/-! ## Scene-load progress trace (sources: `create_scene_async`, `Player::new`) -/

/-- The sequence of `(progress, message)` pairs passed to
`SceneLoadContext::report_progress`, in program order, during the background
scene-load task: `create_scene_async` reports `(0.25, "Loading map...")`,
then `Player::new` reports `(0.0, "Creating camera...")`,
`(0.4, "Loading model...")`, `(0.60, "Instantiating model...")`,
`(0.80, "Creating machine...")`, and finally `create_scene_async` reports
`(1.0, "Done")`.  All progress literals are exact in `f32`, modelled in `ℚ`. -/
def loadReports : List (ℚ × String) :=
  [ (0.25, "Loading map...")
  , (0.0, "Creating camera...")
  , (0.4, "Loading model...")
  , (0.60, "Instantiating model...")
  , (0.80, "Creating machine...")
  , (1.0, "Done") ]

/-! ## Vector math (engine `Vec3` over `ℝ`; `f32` idealized as real arithmetic) -/

/-- Engine `Vec3` with `f32` components modelled as `ℝ`. -/
structure Vec3 where
  x : ℝ
  y : ℝ
  z : ℝ

@[ext] theorem Vec3.ext_fields {a b : Vec3}
    (hx : a.x = b.x) (hy : a.y = b.y) (hz : a.z = b.z) : a = b := by
  cases a; cases b; simp_all

instance : Zero Vec3 := ⟨⟨0, 0, 0⟩⟩
instance : Add Vec3 := ⟨fun a b => ⟨a.x + b.x, a.y + b.y, a.z + b.z⟩⟩
instance : Sub Vec3 := ⟨fun a b => ⟨a.x - b.x, a.y - b.y, a.z - b.z⟩⟩
instance : SMul ℝ Vec3 := ⟨fun c v => ⟨c * v.x, c * v.y, c * v.z⟩⟩

theorem Vec3.zero_def : (0 : Vec3) = ⟨0, 0, 0⟩ := rfl
theorem Vec3.add_def (a b : Vec3) : a + b = ⟨a.x + b.x, a.y + b.y, a.z + b.z⟩ := rfl
theorem Vec3.sub_def (a b : Vec3) : a - b = ⟨a.x - b.x, a.y - b.y, a.z - b.z⟩ := rfl
theorem Vec3.smul_def (c : ℝ) (v : Vec3) : c • v = ⟨c * v.x, c * v.y, c * v.z⟩ := rfl

/-- `Vec3::LOOK` (+Z axis). -/
def Vec3.LOOK : Vec3 := ⟨0, 0, 1⟩

/-- `Vec3::RIGHT` (+X axis). -/
def Vec3.RIGHT : Vec3 := ⟨1, 0, 0⟩

/-- `Vec3::sqr_len`: squared euclidean length. -/
def sqrLen (v : Vec3) : ℝ := v.x * v.x + v.y * v.y + v.z * v.z

/-- `Vec3::len`: euclidean length. -/
noncomputable def vlen (v : Vec3) : ℝ := Real.sqrt (sqrLen v)

/-- Modelled from the spec: the engine's `Vec3::normalized` (engine math code,
not part of the example file under `src/`): returns `None` when the length is
zero (the engine compares against machine epsilon; idealized to an exact zero
test over `ℝ`), otherwise the vector scaled by the reciprocal of its length. -/
noncomputable def normalized (v : Vec3) : Option Vec3 :=
  if vlen v = 0 then none else some ((1 / vlen v) • v)

/-- `f32::to_radians`: degrees to radians. -/
noncomputable def to_radians (x : ℝ) : ℝ := x * (Real.pi / 180)

/-- Engine quaternion with `f32` components modelled as `ℝ`. -/
structure Quat where
  x : ℝ
  y : ℝ
  z : ℝ
  w : ℝ

/-- Modelled from the spec: the engine's `Quat::from_axis_angle` (engine math
code, not part of the example file): the unit quaternion rotating by `angle`
radians about `axis`, built from half-angle sine/cosine. -/
noncomputable def Quat.fromAxisAngle (axis : Vec3) (angle : ℝ) : Quat :=
  let s := Real.sin (angle / 2)
  ⟨axis.x * s, axis.y * s, axis.z * s, Real.cos (angle / 2)⟩

/-- Modelled from the spec: `SmoothAngle` from the engine's core math — "a
smoothed yaw angle (current/target/speed) for model-facing interpolation". -/
structure SmoothAngle where
  angle : ℝ
  target : ℝ
  speed : ℝ

/-- `SmoothAngle::set_target`. -/
def SmoothAngle.set_target (s : SmoothAngle) (t : ℝ) : SmoothAngle :=
  { s with target := t }

/-- Modelled from the spec: `SmoothAngle::update` — "a rate-limited angular
smoother": the angle moves toward the target by at most `speed * dt`. -/
noncomputable def SmoothAngle.update (s : SmoothAngle) (dt : ℝ) : SmoothAngle :=
  let diff := s.target - s.angle
  if |diff| ≤ s.speed * dt then { s with angle := s.target }
  else { s with angle := s.angle + (if 0 < diff then s.speed * dt else -(s.speed * dt)) }

/-! ## Player update (source: `Player::update`) -/

/-- A physics contact as used by `Player::update` (only its position matters). -/
structure Contact where
  position : Vec3

/-- The sum of active directional vectors accumulated by the four `if` blocks
at the top of `Player::update` (`velocity` before normalization). -/
def dirSum (c : InputController) (look side : Vec3) : Vec3 :=
  let v : Vec3 := 0
  let v := if c.walk_right then v - side else v
  let v := if c.walk_left then v + side else v
  let v := if c.walk_forward then v + look else v
  let v := if c.walk_backward then v - look else v
  v

/-- The velocity actually applied in `Player::update`:
`velocity.normalized().and_then(|v| Some(v.scale(speed))).unwrap_or(Vec3::ZERO)`
with `speed = 2.0 * dt`. -/
noncomputable def appliedVelocity (c : InputController) (look side : Vec3) (dt : ℝ) : Vec3 :=
  let speed := 2 * dt
  ((normalized (dirSum c look side)).bind fun v => some (speed • v)).getD 0

/-- The ground-contact loop in `Player::update`: iterate over the body's
contacts, set the flag and break at the first contact whose `y` lies strictly
below the pivot position's `y`. -/
noncomputable def hasGroundContactLoop : List Contact → ℝ → Bool
  | [], _ => false
  | contact :: rest, py =>
    if contact.position.y < py then true else hasGroundContactLoop rest py

/-- The event-drain loop in `Player::update`: pop every pending animation
event of the jump animation; each event carrying `JUMP_SIGNAL` sets the body's
`y` velocity to `6.0 * dt`. -/
def drainJumpEvents (events : List ℕ) (vy : ℝ) (dt : ℝ) : ℝ :=
  events.foldl (fun v e => if e = JUMP_SIGNAL then 6 * dt else v) vy

/-- The scene-graph and physics-body fields written by `Player::update`. -/
structure PlayerNodeState where
  pivotRotation : Quat
  modelRotation : Quat
  cameraPivotRotation : Quat
  cameraPivotPosition : Vec3
  cameraHingeRotation : Quat
  bodyVx : ℝ
  bodyVy : ℝ
  bodyVz : ℝ
  modelYaw : SmoothAngle
  jumpAnimRewound : Bool

/-- Result of one `Player::update` tick: the new node/body state and the
`LocomotionMachineInput` passed to `LocomotionMachine::apply`. -/
structure UpdateOutput where
  state : PlayerNodeState
  machineInput : LocomotionMachineInput

/-- `Player::update`, one tick.  Inputs from the scene: the pivot's raw look
and side vectors (`pivot.look_vector()` / `pivot.side_vector()`), the pivot's
local position, the body's contact list, the jump animation's pending event
queue, and `dt`.  `jumpAnimRewound` records whether this tick executed
`animations.get_mut(jump_animation).rewind()`. -/
noncomputable def playerUpdate (st : PlayerNodeState) (c : InputController)
    (rawLook rawSide position : Vec3) (contacts : List Contact)
    (jumpEvents : List ℕ) (dt : ℝ) : UpdateOutput :=
  let look := (normalized rawLook).getD Vec3.LOOK
  let side := (normalized rawSide).getD Vec3.RIGHT
  let velocity := appliedVelocity c look side dt
  let is_moving := sqrLen velocity > 0
  let has_ground_contact := hasGroundContactLoop contacts position.y
  let vy := drainJumpEvents jumpEvents st.bodyVy dt
  let quat_yaw := Quat.fromAxisAngle ⟨0, 1, 0⟩ c.yaw
  let angle : ℚ := facingAngleDeg c.walk_left c.walk_right c.walk_forward c.walk_backward
  let modelYaw :=
    if is_moving then (st.modelYaw.set_target (to_radians (angle : ℝ))).update dt
    else st.modelYaw
  { state :=
      { pivotRotation := if is_moving then quat_yaw else st.pivotRotation
        modelRotation :=
          if is_moving then Quat.fromAxisAngle ⟨0, 1, 0⟩ modelYaw.angle
          else st.modelRotation
        cameraPivotRotation := quat_yaw
        cameraPivotPosition := position + velocity
        cameraHingeRotation := Quat.fromAxisAngle ⟨1, 0, 0⟩ c.pitch
        bodyVx := velocity.x
        bodyVy := vy
        bodyVz := velocity.z
        modelYaw := modelYaw
        jumpAnimRewound := has_ground_contact && c.jump }
    machineInput :=
      { is_walking := c.walk_backward || c.walk_forward || c.walk_right || c.walk_left
        is_jumping := has_ground_contact && c.jump } }

/-! ## Device events (source: `Player::handle_device_event`) -/

/-- The device events the handler distinguishes: key events (ignored there),
mouse motion with a delta, and anything else (ignored). -/
inductive DeviceEvent where
  | key : DeviceEvent
  | mouseMotion (dx dy : ℝ) : DeviceEvent
  | other : DeviceEvent

/-- `Player::handle_device_event`: mouse motion updates yaw by
`-delta.0 * (0.2 * dt)` with no clamp, and pitch by `+delta.1 * (0.2 * dt)`
clamped into `[-90°, 90°]` (radians) via `.max(...).min(...)`; all other
events leave the controller untouched. -/
noncomputable def handle_device_event (c : InputController) (e : DeviceEvent)
    (dt : ℝ) : InputController :=
  match e with
  | .mouseMotion dx dy =>
    let mouse_sens := 0.2 * dt
    { c with
      yaw := c.yaw - dx * mouse_sens
      pitch := min (max (c.pitch + dy * mouse_sens) (-(to_radians 90))) (to_radians 90) }
  | _ => c

/-- Fold `handle_device_event` over a sequence of (event, dt) pairs. -/
noncomputable def processDeviceEvents (c : InputController)
    (evs : List (DeviceEvent × ℝ)) : InputController :=
  evs.foldl (fun acc p => handle_device_event acc p.1 p.2) c

/-- The total yaw decrement produced by a sequence of (event, dt) pairs:
mouse-motion events contribute `dx * (0.2 * dt)`, other events contribute
nothing. -/
noncomputable def yawDecrement : List (DeviceEvent × ℝ) → ℝ
  | [] => 0
  | (DeviceEvent.mouseMotion dx _, dt) :: rest => dx * (0.2 * dt) + yawDecrement rest
  | (DeviceEvent.key, _) :: rest => yawDecrement rest
  | (DeviceEvent.other, _) :: rest => yawDecrement rest

/-! ## Jump animation playback (modelled; engine animation code is not under `src/`) -/

/-- Modelled from the spec: the engine's animation playback state for the jump
clip — a time cursor plus a queue of pending signal events.  The spec:
"AnimationSignal: a timestamp within an animation clip's timeline that, when
crossed during playback, emits an event consumed once by the controller" and
the clip "is explicitly non-looping".  Time values here are exact rationals
(`0.32` is exactly representable in the model). -/
structure JumpAnimation where
  pos : ℚ
  events : List ℕ

/-- The jump signal's timestamp: `AnimationSignal::new(JUMP_SIGNAL, 0.32)`. -/
def jumpSignalTime : ℚ := 0.32

/-- Modelled from the spec: `Animation::rewind` — reset the time cursor to
zero. -/
def animRewind (a : JumpAnimation) : JumpAnimation :=
  { a with pos := 0 }

/-- Modelled from the spec: one playback step of the non-looping jump clip of
length `len`: the cursor advances by `dt`, clamped at `len` (non-looping), and
the signal event is emitted exactly when the cursor crosses the signal's
timestamp. -/
def animTick (len : ℚ) (a : JumpAnimation) (dt : ℚ) : JumpAnimation :=
  let np := min (a.pos + dt) len
  { pos := np
    events :=
      if a.pos < jumpSignalTime ∧ jumpSignalTime ≤ np then a.events ++ [JUMP_SIGNAL]
      else a.events }

/-- Playback over a sequence of frame steps. -/
def animPlay (len : ℚ) (a : JumpAnimation) (dts : List ℚ) : JumpAnimation :=
  dts.foldl (animTick len) a

/-! ## Helper lemmas -/

theorem sqrLen_nonneg (v : Vec3) : 0 ≤ sqrLen v := by
  unfold sqrLen
  nlinarith [mul_self_nonneg v.x, mul_self_nonneg v.y, mul_self_nonneg v.z]

theorem sqrLen_eq_zero_iff (v : Vec3) : sqrLen v = 0 ↔ v = 0 := by
  constructor
  · intro h
    have hx := mul_self_nonneg v.x
    have hy := mul_self_nonneg v.y
    have hz := mul_self_nonneg v.z
    unfold sqrLen at h
    ext
    · exact mul_self_eq_zero.mp (by linarith)
    · exact mul_self_eq_zero.mp (by linarith)
    · exact mul_self_eq_zero.mp (by linarith)
  · intro h
    subst h
    simp [sqrLen, Vec3.zero_def]

theorem vlen_eq_zero_iff (v : Vec3) : vlen v = 0 ↔ v = 0 := by
  rw [← sqrLen_eq_zero_iff]
  unfold vlen
  constructor
  · intro h
    have := Real.sqrt_eq_zero'.mp h
    have h2 := sqrLen_nonneg v
    linarith
  · intro h
    rw [h, Real.sqrt_zero]

theorem Vec3.smul_smul (a b : ℝ) (v : Vec3) : a • (b • v) = (a * b) • v := by
  ext <;> simp [Vec3.smul_def] <;> ring

noncomputable instance : DecidableEq Vec3 := Classical.decEq _

theorem to_radians_nonneg_90 : 0 ≤ to_radians 90 := by
  unfold to_radians
  positivity

theorem handle_device_event_pitch_bound (c : InputController) (e : DeviceEvent)
    (dt : ℝ) (h : |c.pitch| ≤ to_radians 90) :
    |(handle_device_event c e dt).pitch| ≤ to_radians 90 := by
  cases e with
  | mouseMotion dx dy =>
    simp only [handle_device_event]
    rw [abs_le]
    exact ⟨le_min (le_max_right _ _) (neg_le_self to_radians_nonneg_90),
      min_le_right _ _⟩
  | key => simpa [handle_device_event] using h
  | other => simpa [handle_device_event] using h

theorem processDeviceEvents_pitch_bound (evs : List (DeviceEvent × ℝ)) :
    ∀ c : InputController, |c.pitch| ≤ to_radians 90 →
      |(processDeviceEvents c evs).pitch| ≤ to_radians 90 := by
  induction evs with
  | nil =>
    intro c h
    simpa [processDeviceEvents] using h
  | cons p rest ih =>
    intro c h
    simp only [processDeviceEvents, List.foldl_cons] at ih ⊢
    exact ih _ (handle_device_event_pitch_bound c p.1 p.2 h)

theorem processDeviceEvents_yaw (evs : List (DeviceEvent × ℝ)) :
    ∀ c : InputController,
      (processDeviceEvents c evs).yaw = c.yaw - yawDecrement evs := by
  induction evs with
  | nil =>
    intro c
    simp [processDeviceEvents, yawDecrement]
  | cons p rest ih =>
    intro c
    rcases p with ⟨e, dt⟩
    cases e with
    | mouseMotion dx dy =>
      simp only [processDeviceEvents, List.foldl_cons] at ih ⊢
      rw [ih]
      simp only [handle_device_event, yawDecrement]
      ring
    | key =>
      simp only [processDeviceEvents, List.foldl_cons] at ih ⊢
      rw [ih]
      simp only [handle_device_event, yawDecrement]
    | other =>
      simp only [processDeviceEvents, List.foldl_cons] at ih ⊢
      rw [ih]
      simp only [handle_device_event, yawDecrement]

/-! ## Claims -/

/-- C1, counterexample: the sequence of progress values passed to
`report_progress` during the background load is **not** monotonically
non-decreasing: the first report is `0.25` (map loading, in
`create_scene_async`) and the second is `0.0` (the first report inside
`Player::new`). -/
theorem c1_progress_counterexample :
    (loadReports.map Prod.fst).get? 0 = some 0.25 ∧
    (loadReports.map Prod.fst).get? 1 = some 0 ∧
    ¬ List.Sorted (· ≤ ·) (loadReports.map Prod.fst) := by
  refine ⟨rfl, ?_, ?_⟩
  · simp only [loadReports, List.map, List.get?]
    norm_num
  · simp only [loadReports, List.map, List.sorted_cons, List.mem_cons, List.mem_singleton]
    norm_num

/-- C1, amended: the final report of the load sequence has progress `1.0` with
message `"Done"`, and the progress values are monotonically non-decreasing
from the second report onward (the single violation of monotonicity is the
drop from `0.25` to `0.0` when `Player::new` issues its first report). -/
theorem c1_progress_amended :
    loadReports.getLast? = some (1, "Done") ∧
    List.Sorted (· ≤ ·) ((loadReports.drop 1).map Prod.fst) := by
  constructor
  · simp only [loadReports, List.getLast?, List.getLast, Prod.mk.injEq]
    norm_num
  · simp only [loadReports, List.drop, List.map, List.sorted_cons, List.mem_cons,
      List.mem_singleton]
    norm_num

/-- C2: on every machine update, the Jump→Idle rule parameter set by
`LocomotionMachine::apply` is true if and only if the jump request flag
`is_jumping` handed to the machine is false and the jump animation's
`has_ended` query is true. -/
theorem c2_jump_to_idle_rule (input : LocomotionMachineInput) (ended : Bool) :
    (setRules input ended).jump_to_idle = true ↔
      (input.is_jumping = false ∧ ended = true) := by
  rcases input with ⟨w, j⟩
  cases j <;> cases ended <;> simp [setRules]

/-- C3: the facing-angle target (degrees) computed from the direction flags
matches the fixed table — left+forward → 45, right+backward → -135, backward
alone → 180, no direction → 0 — and for every flag combination the result is
one of the 8 buckets 0, ±45, ±90, ±135, 180. -/
theorem c3_facing_angle_table :
    facingAngleDeg true false true false = 45 ∧
    facingAngleDeg false true false true = -135 ∧
    facingAngleDeg false false false true = 180 ∧
    facingAngleDeg false false false false = 0 ∧
    ∀ l r f b, facingAngleDeg l r f b ∈
      ([0, 45, -45, 90, -90, 135, -135, 180] : List ℚ) := by
  decide

/-- C4: the `is_walking` value fed to the locomotion machine by
`Player::update` is true exactly when at least one directional flag is set. -/
theorem c4_is_walking_iff_any_flag (st : PlayerNodeState) (c : InputController)
    (rawLook rawSide position : Vec3) (contacts : List Contact)
    (jumpEvents : List ℕ) (dt : ℝ) :
    (playerUpdate st c rawLook rawSide position contacts jumpEvents dt).machineInput.is_walking
        = true ↔
      (c.walk_forward = true ∨ c.walk_backward = true ∨
        c.walk_left = true ∨ c.walk_right = true) := by
  simp only [playerUpdate, Bool.or_eq_true]
  tauto

/-- C7: the ground-contact loop of `Player::update` returns true if and only
if some contact point's vertical coordinate lies strictly below the pivot's
vertical position. -/
theorem c7_ground_contact_iff_exists (contacts : List Contact) (py : ℝ) :
    hasGroundContactLoop contacts py = true ↔
      ∃ c ∈ contacts, c.position.y < py := by
  induction contacts with
  | nil => simp [hasGroundContactLoop]
  | cons head tail ih =>
    by_cases h : head.position.y < py
    · simp [hasGroundContactLoop, h]
    · simp [hasGroundContactLoop, h, ih]

/-- C9: the `is_jumping` flag fed to the locomotion machine by
`Player::update` is true exactly when ground contact was detected on that
same tick **and** the jump key is held; in particular a held jump key with no
ground contact never sets `is_jumping`. -/
theorem c9_is_jumping_iff_ground_and_jump (st : PlayerNodeState)
    (c : InputController) (rawLook rawSide position : Vec3)
    (contacts : List Contact) (jumpEvents : List ℕ) (dt : ℝ) :
    (playerUpdate st c rawLook rawSide position contacts jumpEvents dt).machineInput.is_jumping
        = true ↔
      (hasGroundContactLoop contacts position.y = true ∧ c.jump = true) := by
  simp only [playerUpdate, Bool.and_eq_true]

/-- C5: the velocity computed by `Player::update` is the sum of the active
directional vectors (the pivot's normalized look/side vectors), normalized and
scaled by `2.0 * dt`; when that sum is zero (no flags, or cancelling opposite
flags) it is the zero vector; and its `x`/`z` components are exactly what is
written to the physics body. -/
theorem c5_velocity_normalized_scaled (st : PlayerNodeState) (c : InputController)
    (rawLook rawSide position : Vec3) (contacts : List Contact)
    (jumpEvents : List ℕ) (dt : ℝ) (look side : Vec3) :
    (appliedVelocity c look side dt =
        if dirSum c look side = 0 then 0
        else ((2 * dt) / vlen (dirSum c look side)) • dirSum c look side) ∧
    (playerUpdate st c rawLook rawSide position contacts jumpEvents dt).state.bodyVx =
      (appliedVelocity c ((normalized rawLook).getD Vec3.LOOK)
        ((normalized rawSide).getD Vec3.RIGHT) dt).x ∧
    (playerUpdate st c rawLook rawSide position contacts jumpEvents dt).state.bodyVz =
      (appliedVelocity c ((normalized rawLook).getD Vec3.LOOK)
        ((normalized rawSide).getD Vec3.RIGHT) dt).z := by
  refine ⟨?_, rfl, rfl⟩
  simp only [appliedVelocity, normalized]
  by_cases h : vlen (dirSum c look side) = 0
  · have h0 : dirSum c look side = 0 := (vlen_eq_zero_iff _).mp h
    rw [if_pos h, if_pos h0]
    rfl
  · have h0 : dirSum c look side ≠ 0 := fun e => h ((vlen_eq_zero_iff _).mpr e)
    rw [if_neg h, if_neg h0]
    simp only [Option.some_bind, Option.getD_some]
    rw [Vec3.smul_smul, mul_one_div]

/-- C6: starting from the default controller, any sequence of device events
leaves the accumulated pitch within `[-90°, 90°]` (radians), regardless of the
number and magnitude of the mouse deltas, while yaw is accumulated with no
clamp: the final yaw is exactly the initial yaw minus the sum of all
mouse-motion contributions `dx * (0.2 * dt)`. -/
theorem c6_pitch_clamped_yaw_unclamped (evs : List (DeviceEvent × ℝ))
    (c : InputController) :
    |(processDeviceEvents InputController.default evs).pitch| ≤ to_radians 90 ∧
    (processDeviceEvents c evs).yaw = c.yaw - yawDecrement evs := by
  constructor
  · apply processDeviceEvents_pitch_bound
    simp only [InputController.default, abs_zero]
    exact to_radians_nonneg_90
  · exact processDeviceEvents_yaw evs c

/-- One playback step preserves the jump-clip invariant: the cursor stays in
`[0, len]` and the event queue holds the signal exactly when the cursor has
reached the signal's timestamp. -/
theorem animTick_invariant (len : ℚ) (a : JumpAnimation) (d : ℚ)
    (hd : 0 ≤ d) (hlen : jumpSignalTime ≤ len)
    (h0 : 0 ≤ a.pos) (_h1 : a.pos ≤ len)
    (he : a.events = if jumpSignalTime ≤ a.pos then [JUMP_SIGNAL] else []) :
    0 ≤ (animTick len a d).pos ∧ (animTick len a d).pos ≤ len ∧
      (animTick len a d).events =
        if jumpSignalTime ≤ (animTick len a d).pos then [JUMP_SIGNAL] else [] := by
  have hts : (0 : ℚ) < jumpSignalTime := by norm_num [jumpSignalTime]
  refine ⟨?_, ?_, ?_⟩
  · simp only [animTick]
    exact le_min (by linarith) (by linarith)
  · simp only [animTick]
    exact min_le_right _ _
  · simp only [animTick]
    by_cases hr : jumpSignalTime ≤ a.pos
    · have hnp : jumpSignalTime ≤ min (a.pos + d) len := le_min (by linarith) hlen
      rw [he, if_pos hr]
      simp [not_lt.mpr hr, hnp]
    · push_neg at hr
      rw [he, if_neg (not_le.mpr hr)]
      by_cases hcross : jumpSignalTime ≤ min (a.pos + d) len
      · simp [hr, hcross]
      · simp [hr, hcross]

/-- Playback over any sequence of non-negative steps preserves the jump-clip
invariant. -/
theorem animPlay_invariant (len : ℚ) (hlen : jumpSignalTime ≤ len) :
    ∀ (dts : List ℚ) (a : JumpAnimation),
      (∀ d ∈ dts, 0 ≤ d) → 0 ≤ a.pos → a.pos ≤ len →
      a.events = (if jumpSignalTime ≤ a.pos then [JUMP_SIGNAL] else []) →
      0 ≤ (animPlay len a dts).pos ∧ (animPlay len a dts).pos ≤ len ∧
        (animPlay len a dts).events =
          if jumpSignalTime ≤ (animPlay len a dts).pos then [JUMP_SIGNAL] else [] := by
  intro dts
  induction dts with
  | nil =>
    intro a _ h0 h1 he
    exact ⟨h0, h1, he⟩
  | cons d rest ih =>
    intro a hdts h0 h1 he
    have hd : 0 ≤ d := hdts d (List.mem_cons_self _ _)
    have hrest : ∀ x ∈ rest, 0 ≤ x := fun x hx => hdts x (List.mem_cons_of_mem _ hx)
    obtain ⟨i0, i1, i2⟩ := animTick_invariant len a d hd hlen h0 h1 he
    simpa [animPlay, List.foldl_cons] using ih (animTick len a d) hrest i0 i1 i2

/-- C8: in the modelled playback of the non-looping jump clip (signal at
timestamp `0.32`), rewinding to time zero before the trigger with a drained
event queue guarantees the JUMP_SIGNAL event is emitted exactly once over any
subsequent sequence of non-negative frame steps — once the cursor reaches the
signal's timestamp the queue holds exactly one JUMP_SIGNAL event and never
gains another — and consuming that queue through `Player::update`'s drain loop
applies the upward velocity `6.0 * dt` exactly when the signal fired. -/
theorem c8_jump_signal_fires_once (len : ℚ) (dts : List ℚ) (a : JumpAnimation)
    (vy dt : ℝ) (hlen : jumpSignalTime ≤ len) (hdts : ∀ d ∈ dts, 0 ≤ d)
    (ha : a.events = []) :
    ((animPlay len (animRewind a) dts).events.count JUMP_SIGNAL =
        if jumpSignalTime ≤ (animPlay len (animRewind a) dts).pos then 1 else 0) ∧
    (drainJumpEvents (animPlay len (animRewind a) dts).events vy dt =
        if jumpSignalTime ≤ (animPlay len (animRewind a) dts).pos then 6 * dt else vy) := by
  have hts : (0 : ℚ) < jumpSignalTime := by norm_num [jumpSignalTime]
  have h0 : (0 : ℚ) ≤ (animRewind a).pos := le_of_eq rfl
  have h1 : (animRewind a).pos ≤ len := by
    simp only [animRewind]
    linarith
  have he : (animRewind a).events =
      if jumpSignalTime ≤ (animRewind a).pos then [JUMP_SIGNAL] else [] := by
    simp only [animRewind, ha]
    rw [if_neg (by simpa using not_le.mpr hts)]
  obtain ⟨-, -, i2⟩ := animPlay_invariant len hlen dts (animRewind a) hdts h0 h1 he
  rw [i2]
  by_cases hfin : jumpSignalTime ≤ (animPlay len (animRewind a) dts).pos
  · rw [if_pos hfin, if_pos hfin, if_pos hfin]
    constructor
    · simp
    · simp [drainJumpEvents]
  · rw [if_neg hfin, if_neg hfin, if_neg hfin]
    constructor
    · simp
    · simp [drainJumpEvents]

/-- C8 witness: a concrete run — clip length `1`, two frame steps of `1/4`
each after a rewind from cursor `7/10` — satisfies every hypothesis, and the
conclusion follows by the theorem. -/
theorem c8_jump_signal_fires_once_witness :
    jumpSignalTime ≤ (1 : ℚ) ∧ (∀ d ∈ ([1/4, 1/4] : List ℚ), 0 ≤ d) ∧
      (JumpAnimation.mk (7/10) []).events = [] ∧
      (((animPlay 1 (animRewind (JumpAnimation.mk (7/10) [])) [1/4, 1/4]).events.count
            JUMP_SIGNAL =
          if jumpSignalTime ≤
              (animPlay 1 (animRewind (JumpAnimation.mk (7/10) [])) [1/4, 1/4]).pos
          then 1 else 0) ∧
        (drainJumpEvents
            (animPlay 1 (animRewind (JumpAnimation.mk (7/10) [])) [1/4, 1/4]).events
            (0 : ℝ) (1 : ℝ) =
          if jumpSignalTime ≤
              (animPlay 1 (animRewind (JumpAnimation.mk (7/10) [])) [1/4, 1/4]).pos
          then 6 * (1 : ℝ) else (0 : ℝ))) :=
  ⟨by norm_num [jumpSignalTime], by norm_num, rfl,
    c8_jump_signal_fires_once 1 [1/4, 1/4] (JumpAnimation.mk (7/10) []) 0 1
      (by norm_num [jumpSignalTime]) (by norm_num) rfl⟩

/-- C10: on a tick where the computed velocity is zero (no flags set, or
opposite flags cancelling), `Player::update` leaves the pivot rotation, the
model rotation and the `model_yaw` smoother unchanged, while still feeding
`is_walking` computed from the raw flags (true whenever any directional flag
is set) to the locomotion machine. -/
theorem c10_stationary_tick (st : PlayerNodeState) (c : InputController)
    (rawLook rawSide position : Vec3) (contacts : List Contact)
    (jumpEvents : List ℕ) (dt : ℝ)
    (h : appliedVelocity c ((normalized rawLook).getD Vec3.LOOK)
        ((normalized rawSide).getD Vec3.RIGHT) dt = 0) :
    (playerUpdate st c rawLook rawSide position contacts jumpEvents dt).state.pivotRotation
        = st.pivotRotation ∧
    (playerUpdate st c rawLook rawSide position contacts jumpEvents dt).state.modelRotation
        = st.modelRotation ∧
    (playerUpdate st c rawLook rawSide position contacts jumpEvents dt).state.modelYaw
        = st.modelYaw ∧
    (playerUpdate st c rawLook rawSide position contacts jumpEvents dt).machineInput.is_walking
        = (c.walk_backward || c.walk_forward || c.walk_right || c.walk_left) := by
  have hnm : ¬ sqrLen (appliedVelocity c ((normalized rawLook).getD Vec3.LOOK)
      ((normalized rawSide).getD Vec3.RIGHT) dt) > 0 := by
    rw [h]
    simp [sqrLen, Vec3.zero_def]
  simp [playerUpdate, hnm]

/-- C10 witness: the default controller (no flags) with canonical look/side
vectors yields zero velocity, and the update leaves rotations, the smoother
untouched and reports `is_walking = false`. -/
theorem c10_stationary_tick_witness :
    (appliedVelocity InputController.default
        ((normalized ⟨0, 0, 1⟩).getD Vec3.LOOK)
        ((normalized ⟨1, 0, 0⟩).getD Vec3.RIGHT) 1 = 0) ∧
    ((playerUpdate
          ⟨⟨0, 0, 0, 1⟩, ⟨0, 0, 0, 1⟩, ⟨0, 0, 0, 1⟩, ⟨0, 0, 0⟩, ⟨0, 0, 0, 1⟩,
            0, 0, 0, ⟨0, 0, 10⟩, false⟩
          InputController.default ⟨0, 0, 1⟩ ⟨1, 0, 0⟩ ⟨0, 0, 0⟩ [] [] 1).state.pivotRotation
        = ⟨0, 0, 0, 1⟩ ∧
      (playerUpdate
          ⟨⟨0, 0, 0, 1⟩, ⟨0, 0, 0, 1⟩, ⟨0, 0, 0, 1⟩, ⟨0, 0, 0⟩, ⟨0, 0, 0, 1⟩,
            0, 0, 0, ⟨0, 0, 10⟩, false⟩
          InputController.default ⟨0, 0, 1⟩ ⟨1, 0, 0⟩ ⟨0, 0, 0⟩ [] [] 1).state.modelYaw
        = ⟨0, 0, 10⟩ ∧
      (playerUpdate
          ⟨⟨0, 0, 0, 1⟩, ⟨0, 0, 0, 1⟩, ⟨0, 0, 0, 1⟩, ⟨0, 0, 0⟩, ⟨0, 0, 0, 1⟩,
            0, 0, 0, ⟨0, 0, 10⟩, false⟩
          InputController.default ⟨0, 0, 1⟩ ⟨1, 0, 0⟩ ⟨0, 0, 0⟩ [] [] 1).machineInput.is_walking
        = false) := by
  have hvel : appliedVelocity InputController.default
      ((normalized ⟨0, 0, 1⟩).getD Vec3.LOOK)
      ((normalized ⟨1, 0, 0⟩).getD Vec3.RIGHT) 1 = 0 := by
    simp [appliedVelocity, dirSum, InputController.default, normalized, vlen,
      sqrLen, Vec3.zero_def]
  obtain ⟨h1, -, h3, h4⟩ := c10_stationary_tick
    ⟨⟨0, 0, 0, 1⟩, ⟨0, 0, 0, 1⟩, ⟨0, 0, 0, 1⟩, ⟨0, 0, 0⟩, ⟨0, 0, 0, 1⟩,
      0, 0, 0, ⟨0, 0, 10⟩, false⟩
    InputController.default ⟨0, 0, 1⟩ ⟨1, 0, 0⟩ ⟨0, 0, 0⟩ [] [] 1 hvel
  refine ⟨hvel, h1, h3, ?_⟩
  rw [h4]
  rfl

end RgShared
